import Mathlib

/-!
Verification of the feed-and-sync (ping-pong) charm, `src/src/charm.py`.

The charm circulates a token between peers over the `ping-send` /
`ping-receive` relations.  Each unit owns one typed bucket
(`FeedAndSyncInterface`, lines 32-40) whose integer fields are checked to be
≥ 0 and whose float fields are checked to be ≥ 0.0, so integers are modelled
as `Nat` and floats as `ℚ`.

The two entry points modelled here are
`_on_ping_receive_relation_changed` (lines 81-139) and `_on_ping_action`
(lines 141-160).  Each handler invocation is embedded as a pure function from
its inputs (stored config, local unit name and application, the observed
remote bucket, the members of the `ping-send` relation, the wall-clock value
`time.time()` returns inside the handler, and the unit's own send bucket
before the event) to a `HandlerOut` record collecting the send bucket after
the handler, the unit-status strings set during the run (in order;
`ActiveStatus()` with no argument is the empty string), and whether the
handler raised an uncaught `IndexError` from `target[0]` on an empty
candidate list.  Field writes executed before such an error are reflected in
the resulting bucket, because the interface publishes each attribute
assignment as it happens.
-/

namespace FeedAndSync

/-- The typed fields of a unit's bucket (`FeedAndSyncInterface`,
charm.py lines 32-40).  `cycles_complete`, `times_passed`, `times_received`
carry `checker.IntegerRange(0, None)`, hence `Nat`; `time_elapsed` and
`timestamp` carry `checker.FloatRange(0.0, None)` and are modelled as `ℚ`. -/
structure Token where
  message : String
  origin : String
  next_holder : String
  cycles_complete : Nat
  times_passed : Nat
  times_received : Nat
  time_elapsed : ℚ
  timestamp : ℚ
deriving DecidableEq, Repr

/-- The remote unit's relation data as observed by the receive handler.  The
raw `message` key may be absent (`none`), which the guard at lines 84-89
checks before any interface read; the other fields are read through the
interface, which substitutes the declared defaults, so they are total. -/
structure RecvEvent where
  message : Option String
  origin : String
  next_holder : String
  cycles_complete : Nat
  times_passed : Nat
  times_received : Nat
  time_elapsed : ℚ
  timestamp : ℚ
deriving DecidableEq, Repr

/-- `recv_bucket.message`: the interface substitutes the default `""` when
the key is absent. -/
def RecvEvent.messageVal (e : RecvEvent) : String := e.message.getD ""

/-- A member of the `ping-send` relation as seen in `r.units`: its unit name
and the name of the application it belongs to. -/
structure UnitRef where
  name : String
  app : String
deriving DecidableEq, Repr

/-- `[u.name for u in r.units if u.app is not self.app]`
(charm.py lines 124 and 145): the candidate forwarding targets. -/
def resolveTargets (selfApp : String) (units : List UnitRef) : List String :=
  (units.filter (fun u => u.app != selfApp)).map (fun u => u.name)

/-- The charm's stored bucket `{max_cycles: None, delay: 0}`
(charm.py lines 65-67), as maintained by `_on_config_changed`.  `max_cycles`
is the value of the `max-cycles` config key, a non-negative integer or unset. -/
structure Config where
  max_cycles : Option Nat
  delay : ℚ
deriving DecidableEq, Repr

/-- The observable outcome of one handler invocation: the unit's own send
bucket after the handler, the unit-status strings set during the run in
order, and whether the handler raised an uncaught `IndexError` at
`target[0]`. -/
structure HandlerOut where
  send : Token
  statuses : List String
  errored : Bool
deriving DecidableEq, Repr

/-- Model of Python's `f"{x:.2f}"` on a non-negative value: `q` rounded to
hundredths (half up), rendered with exactly two digits after the point. -/
def format2 (q : ℚ) : String :=
  let cents : Int := ⌊q * 100 + 1 / 2⌋
  let n : Nat := cents.toNat
  toString (n / 100) ++ "." ++ (if n % 100 < 10 then "0" else "") ++ toString (n % 100)

/-- The status string built at charm.py lines 111-120 from the received
bucket: note `R:` shows `times_received + 1` while the other fields are shown
as received, and `T:` uses two-decimal formatting. -/
def snapshot (recv : RecvEvent) : String :=
  let m := recv.messageVal
  let h := recv.next_holder
  let p := toString recv.times_passed
  let r := toString (recv.times_received + 1)
  let c := toString recv.cycles_complete
  let t := format2 recv.time_elapsed
  "M: " ++ m ++ " H: " ++ h ++ " P: " ++ p ++ " R: " ++ r ++ " C: " ++ c ++ " T: " ++ t

/-- The completion status set at charm.py lines 98-103.  The float is
interpolated with Python's default rendering; its value is modelled by the
`ToString` instance of `ℚ`. -/
def haltMsg (te : ℚ) : String :=
  "Max cycles reached. Time to completion is " ++ toString te ++ " seconds."

/-- Shallow embedding of `_on_ping_receive_relation_changed`
(charm.py lines 81-139).

* Guard (lines 84-89): `message` absent or empty returns with no effect.
* Halt (lines 95-104): with `c = recv.cycles_complete + 1`, if the origin is
  the local unit and the stored `max_cycles` equals `c` (comparison against
  Python `None` is false, hence `some c`), only the completion status is set
  and the handler returns before any bucket write.
* Otherwise `cycles_complete` is written (line 106 when origin is local,
  line 108 otherwise), the snapshot status is set (lines 111-120), the
  optional delay sleeps (lines 121-122, no state effect), and the outgoing
  token is written field by field (lines 125-138).  `target[0]` at line 127
  raises when the candidate list is empty, leaving the fields written at
  lines 106/108, 125 and 126 in place.  Lines 128-131 re-assign
  `cycles_complete` to an equal value or skip, a no-op either way.  On
  success the status is finally overwritten with `ActiveStatus()` (line 139),
  the empty string. -/
def onReceive (cfg : Config) (selfName selfApp : String) (recv : RecvEvent)
    (units : List UnitRef) (now : ℚ) (send : Token) : HandlerOut :=
  if recv.message = none ∨ recv.message = some "" then
    { send := send, statuses := [], errored := false }
  else if recv.origin = selfName ∧ cfg.max_cycles = some (recv.cycles_complete + 1) then
    { send := send, statuses := [haltMsg recv.time_elapsed], errored := false }
  else
    match resolveTargets selfApp units with
    | [] =>
        { send := { send with
              cycles_complete :=
                if recv.origin = selfName then recv.cycles_complete + 1
                else recv.cycles_complete,
              message := recv.messageVal,
              origin := recv.origin },
          statuses := [snapshot recv],
          errored := true }
    | nh :: _ =>
        { send :=
            { message := recv.messageVal,
              origin := recv.origin,
              next_holder := nh,
              cycles_complete :=
                if recv.origin = selfName then recv.cycles_complete + 1
                else recv.cycles_complete,
              times_passed := recv.times_passed + 1,
              times_received := recv.times_received + 1,
              time_elapsed := recv.time_elapsed + (now - recv.timestamp),
              timestamp := now },
          statuses := [snapshot recv, ""],
          errored := false }

/-- Shallow embedding of `_on_ping_action` (charm.py lines 141-160).  `tok`
is `event.params["token"]`, `now` is `time.time()` at line 156.  The handler
sets no unit status.  `target[0]` at line 151 raises when the candidate list
is empty, after `message` (line 149) and `origin` (line 150) are written. -/
def onPingAction (selfName selfApp : String) (tok : String)
    (units : List UnitRef) (now : ℚ) (send : Token) : HandlerOut :=
  match resolveTargets selfApp units with
  | [] =>
      { send := { send with message := tok, origin := selfName },
        statuses := [],
        errored := true }
  | nh :: _ =>
      { send :=
          { message := tok,
            origin := selfName,
            next_holder := nh,
            cycles_complete := 0,
            times_passed := 1,
            times_received := 0,
            time_elapsed := 0,
            timestamp := now },
        statuses := [],
        errored := false }

/-- A unit's bucket contents, observed by the next unit as a
relation-changed event: every field is present, `message` in particular. -/
def Token.toRecv (t : Token) : RecvEvent :=
  { message := some t.message,
    origin := t.origin,
    next_holder := t.next_holder,
    cycles_complete := t.cycles_complete,
    times_passed := t.times_passed,
    times_received := t.times_received,
    time_elapsed := t.time_elapsed,
    timestamp := t.timestamp }

/-- One hop of a token's lineage: the receiving unit's name and application,
the members of its `ping-send` relation, and `time.time()` inside its
handler. -/
structure Hop where
  selfName : String
  selfApp : String
  units : List UnitRef
  now : ℚ
deriving Repr

/-- Iterate `onReceive` along a list of hops, each hop handling the token
the previous hop published.  The receiving unit's initial send bucket is
irrelevant on the successful forwarding path, which overwrites every field;
it is passed the incoming token for definiteness. -/
def runHops (cfg : Config) : List Hop → Token → Token
  | [], t => t
  | h :: rest, t =>
      runHops cfg rest (onReceive cfg h.selfName h.selfApp t.toRecv h.units h.now t).send

/-- The sum of successive `(now − timestamp)` deltas for hops at the given
times, starting from a token written at time `ts`. -/
def sumDeltas (ts : ℚ) : List ℚ → ℚ
  | [] => 0
  | n :: rest => (n - ts) + sumDeltas n rest

/-- Modelled from the spec: §6 Observability describes "a human-readable
status string reflecting the most recently received token's `message`,
`next_holder`, `times_passed`, `times_received`, `cycles_complete`,
`time_elapsed` (2-decimal formatting)".  This renders exactly those received
fields, to be compared with the status the code actually leaves behind. -/
def specStatus (recv : RecvEvent) : String :=
  let m := recv.messageVal
  let h := recv.next_holder
  let p := toString recv.times_passed
  let r := toString recv.times_received
  let c := toString recv.cycles_complete
  let t := format2 recv.time_elapsed
  "M: " ++ m ++ " H: " ++ h ++ " P: " ++ p ++ " R: " ++ r ++ " C: " ++ c ++ " T: " ++ t

/-- Sample: a token observed at unit `a/0`, originated elsewhere (`b/0`). -/
def rcvSample : RecvEvent :=
  { message := some "hello", origin := "b/0", next_holder := "a/0",
    cycles_complete := 0, times_passed := 1, times_received := 0,
    time_elapsed := 0, timestamp := 3 }

/-- Sample: a token arriving back at its origin `a/0` with no cycle done. -/
def rcvHome : RecvEvent :=
  { message := some "hello", origin := "a/0", next_holder := "a/0",
    cycles_complete := 0, times_passed := 2, times_received := 1,
    time_elapsed := 5, timestamp := 3 }

/-- Sample: a foreign-origin token that has completed five cycles. -/
def rcvFive : RecvEvent :=
  { message := some "hello", origin := "b/0", next_holder := "a/0",
    cycles_complete := 5, times_passed := 11, times_received := 10,
    time_elapsed := 7, timestamp := 3 }

/-- Sample: relation data with no `message` key yet. -/
def rcvBlank : RecvEvent :=
  { message := none, origin := "", next_holder := "",
    cycles_complete := 0, times_passed := 0, times_received := 0,
    time_elapsed := 0, timestamp := 0 }

/-- Sample: a send bucket still holding the interface defaults. -/
def sendInit : Token :=
  { message := "", origin := "", next_holder := "",
    cycles_complete := 0, times_passed := 0, times_received := 0,
    time_elapsed := 0, timestamp := 0 }

/-- Sample: the `ping-send` relation seen from application `a` with one
foreign unit `b/0`. -/
def unitsAB : List UnitRef := [{ name := "b/0", app := "b" }]

/-- A present, non-empty `message` key falsifies the guard at lines 84-87. -/
theorem message_present {recv : RecvEvent} {m : String} (hm : recv.message = some m)
    (hne : m ≠ "") : ¬(recv.message = none ∨ recv.message = some "") := by
  rintro (h | h) <;> rw [hm] at h
  · exact Option.noConfusion h
  · exact hne (Option.some.inj h)

/-- Branch lemma: the guard at lines 84-89 returns with no effect. -/
theorem onReceive_guard (cfg : Config) (selfName selfApp : String) (recv : RecvEvent)
    (units : List UnitRef) (now : ℚ) (send : Token)
    (h : recv.message = none ∨ recv.message = some "") :
    onReceive cfg selfName selfApp recv units now send
      = { send := send, statuses := [], errored := false } := by
  unfold onReceive
  rw [if_pos h]

/-- Branch lemma: the halt branch at lines 96-104 sets only the completion
status and returns before any bucket write. -/
theorem onReceive_halt (cfg : Config) (selfName selfApp : String) (recv : RecvEvent)
    (units : List UnitRef) (now : ℚ) (send : Token)
    (h1 : ¬(recv.message = none ∨ recv.message = some ""))
    (h2 : recv.origin = selfName)
    (h3 : cfg.max_cycles = some (recv.cycles_complete + 1)) :
    onReceive cfg selfName selfApp recv units now send
      = { send := send, statuses := [haltMsg recv.time_elapsed], errored := false } := by
  unfold onReceive
  rw [if_neg h1, if_pos ⟨h2, h3⟩]

/-- Branch lemma: the full forwarding path, lines 106-139, with a non-empty
candidate list whose head is `nh`. -/
theorem onReceive_forward (cfg : Config) (selfName selfApp : String) (recv : RecvEvent)
    (units : List UnitRef) (now : ℚ) (send : Token)
    (h1 : ¬(recv.message = none ∨ recv.message = some ""))
    (h2 : ¬(recv.origin = selfName ∧ cfg.max_cycles = some (recv.cycles_complete + 1)))
    (nh : String) (rest : List String)
    (ht : resolveTargets selfApp units = nh :: rest) :
    onReceive cfg selfName selfApp recv units now send
      = { send :=
            { message := recv.messageVal,
              origin := recv.origin,
              next_holder := nh,
              cycles_complete :=
                if recv.origin = selfName then recv.cycles_complete + 1
                else recv.cycles_complete,
              times_passed := recv.times_passed + 1,
              times_received := recv.times_received + 1,
              time_elapsed := recv.time_elapsed + (now - recv.timestamp),
              timestamp := now },
          statuses := [snapshot recv, ""],
          errored := false } := by
  unfold onReceive
  rw [if_neg h1, if_neg h2, ht]

/-- Branch lemma: forwarding attempted with an empty candidate list raises at
line 127, after the writes of lines 106/108, 125 and 126. -/
theorem onReceive_noPeer (cfg : Config) (selfName selfApp : String) (recv : RecvEvent)
    (units : List UnitRef) (now : ℚ) (send : Token)
    (h1 : ¬(recv.message = none ∨ recv.message = some ""))
    (h2 : ¬(recv.origin = selfName ∧ cfg.max_cycles = some (recv.cycles_complete + 1)))
    (ht : resolveTargets selfApp units = []) :
    onReceive cfg selfName selfApp recv units now send
      = { send := { send with
              cycles_complete :=
                if recv.origin = selfName then recv.cycles_complete + 1
                else recv.cycles_complete,
              message := recv.messageVal,
              origin := recv.origin },
          statuses := [snapshot recv],
          errored := true } := by
  unfold onReceive
  rw [if_neg h1, if_neg h2, ht]

/-- Branch lemma: a successful ping action, lines 144-160. -/
theorem onPingAction_ok (selfName selfApp tok : String) (units : List UnitRef)
    (now : ℚ) (send : Token) (nh : String) (rest : List String)
    (ht : resolveTargets selfApp units = nh :: rest) :
    onPingAction selfName selfApp tok units now send
      = { send :=
            { message := tok,
              origin := selfName,
              next_holder := nh,
              cycles_complete := 0,
              times_passed := 1,
              times_received := 0,
              time_elapsed := 0,
              timestamp := now },
          statuses := [],
          errored := false } := by
  unfold onPingAction
  rw [ht]

/-- Branch lemma: a ping action with an empty candidate list raises at line
151, after `message` and `origin` are written. -/
theorem onPingAction_noPeer (selfName selfApp tok : String) (units : List UnitRef)
    (now : ℚ) (send : Token)
    (ht : resolveTargets selfApp units = []) :
    onPingAction selfName selfApp tok units now send
      = { send := { send with message := tok, origin := selfName },
          statuses := [],
          errored := true } := by
  unfold onPingAction
  rw [ht]

/-- The sum of deltas over a chain of non-decreasing times is non-negative. -/
theorem sumDeltas_nonneg : ∀ (l : List ℚ) (ts : ℚ),
    List.Chain (fun a b => a ≤ b) ts l → 0 ≤ sumDeltas ts l
  | [], _, _ => le_of_eq rfl
  | n :: rest, ts, h => by
      rw [List.chain_cons] at h
      have h2 := sumDeltas_nonneg rest n h.2
      have h1 := h.1
      unfold sumDeltas
      linarith

/-- Along a lineage of successful forwards (unbounded configuration,
non-empty message, candidates available at every hop), the token's
`time_elapsed` equals its initial value plus the sum of the successive
`(now − timestamp)` deltas. -/
theorem runHops_time_elapsed (cfg : Config) (hmc : cfg.max_cycles = none) :
    ∀ (hops : List Hop) (t : Token), t.message ≠ "" →
      (∀ h ∈ hops, resolveTargets h.selfApp h.units ≠ []) →
      (runHops cfg hops t).time_elapsed
        = t.time_elapsed + sumDeltas t.timestamp (hops.map Hop.now)
  | [], t, _, _ => by simp [runHops, sumDeltas]
  | h :: rest, t, hm, hres => by
      have hne : resolveTargets h.selfApp h.units ≠ [] := hres h (by simp)
      obtain ⟨nh, tl, ht⟩ := List.exists_cons_of_ne_nil hne
      have hguard : ¬(t.toRecv.message = none ∨ t.toRecv.message = some "") :=
        message_present (m := t.message) rfl hm
      have hhalt : ¬(t.toRecv.origin = h.selfName
          ∧ cfg.max_cycles = some (t.toRecv.cycles_complete + 1)) := by
        rw [hmc]
        rintro ⟨-, hc⟩
        exact Option.noConfusion hc
      have hfwd := onReceive_forward cfg h.selfName h.selfApp t.toRecv h.units h.now t
        hguard hhalt nh tl ht
      have hrest := runHops_time_elapsed cfg hmc rest
        (onReceive cfg h.selfName h.selfApp t.toRecv h.units h.now t).send
        (by rw [hfwd]; exact hm)
        (fun x hx => hres x (by simp [hx]))
      rw [runHops, hrest, hfwd]
      show t.time_elapsed + (h.now - t.timestamp) + sumDeltas h.now (rest.map Hop.now)
        = t.time_elapsed + sumDeltas t.timestamp ((h :: rest).map Hop.now)
      rw [List.map_cons]
      rw [show sumDeltas t.timestamp (h.now :: List.map Hop.now rest)
        = (h.now - t.timestamp) + sumDeltas h.now (List.map Hop.now rest) from rfl]
      ring

/-- C1: when a token with a non-empty message arrives back at its origin and
`received.cycles_complete + 1` equals the configured `max_cycles` (which is
set), the handler performs no write to the local bucket, reports completion
through the status string carrying `received.time_elapsed`, and does not
forward the token. -/
theorem c1_halt_reports_and_stops (cfg : Config) (selfName selfApp : String)
    (recv : RecvEvent) (units : List UnitRef) (now : ℚ) (send : Token) (m : String)
    (hm : recv.message = some m) (hne : m ≠ "")
    (horig : recv.origin = selfName)
    (hmax : cfg.max_cycles = some (recv.cycles_complete + 1)) :
    onReceive cfg selfName selfApp recv units now send
      = { send := send, statuses := [haltMsg recv.time_elapsed], errored := false } :=
  onReceive_halt cfg selfName selfApp recv units now send
    (message_present hm hne) horig hmax

theorem c1_halt_reports_and_stops_witness :
    onReceive { max_cycles := some 1, delay := 0 } "a/0" "a" rcvHome unitsAB 10 sendInit
      = { send := sendInit, statuses := [haltMsg rcvHome.time_elapsed], errored := false } :=
  c1_halt_reports_and_stops { max_cycles := some 1, delay := 0 } "a/0" "a" rcvHome
    unitsAB 10 sendInit "hello" rfl (by decide) rfl rfl

/-- C2: a token written by the ping action has `times_passed = 1` and
`times_received = 0`; a non-empty token processed on the forwarding
(non-halt) path comes out with both counters incremented by 1, so
`times_passed = times_received + 1` is preserved for the lifetime of every
token. -/
theorem c2_counter_invariant (cfg : Config) (selfName selfApp tok : String)
    (recv : RecvEvent) (units : List UnitRef) (now : ℚ) (send : Token)
    (m nh : String) (rest : List String)
    (hm : recv.message = some m) (hne : m ≠ "")
    (hnohalt : ¬(recv.origin = selfName
      ∧ cfg.max_cycles = some (recv.cycles_complete + 1)))
    (ht : resolveTargets selfApp units = nh :: rest) :
    ((onPingAction selfName selfApp tok units now send).send.times_passed = 1
      ∧ (onPingAction selfName selfApp tok units now send).send.times_received = 0)
    ∧ ((onReceive cfg selfName selfApp recv units now send).send.times_passed
          = recv.times_passed + 1
      ∧ (onReceive cfg selfName selfApp recv units now send).send.times_received
          = recv.times_received + 1)
    ∧ (recv.times_passed = recv.times_received + 1 →
        (onReceive cfg selfName selfApp recv units now send).send.times_passed
          = (onReceive cfg selfName selfApp recv units now send).send.times_received + 1) := by
  rw [onPingAction_ok selfName selfApp tok units now send nh rest ht,
    onReceive_forward cfg selfName selfApp recv units now send
      (message_present hm hne) hnohalt nh rest ht]
  exact ⟨⟨rfl, rfl⟩, ⟨rfl, rfl⟩, fun h => by rw [h]⟩

theorem c2_counter_invariant_witness :
    (((onPingAction "a/0" "a" "hi" unitsAB 7 sendInit).send.times_passed = 1
      ∧ (onPingAction "a/0" "a" "hi" unitsAB 7 sendInit).send.times_received = 0)
    ∧ ((onReceive { max_cycles := none, delay := 0 } "a/0" "a" rcvSample unitsAB 10
          sendInit).send.times_passed = rcvSample.times_passed + 1
      ∧ (onReceive { max_cycles := none, delay := 0 } "a/0" "a" rcvSample unitsAB 10
          sendInit).send.times_received = rcvSample.times_received + 1)
    ∧ (rcvSample.times_passed = rcvSample.times_received + 1 →
        (onReceive { max_cycles := none, delay := 0 } "a/0" "a" rcvSample unitsAB 10
          sendInit).send.times_passed
          = (onReceive { max_cycles := none, delay := 0 } "a/0" "a" rcvSample unitsAB 10
              sendInit).send.times_received + 1)) :=
  c2_counter_invariant { max_cycles := none, delay := 0 } "a/0" "a" "hi" rcvSample
    unitsAB 10 sendInit "hello" "b/0" [] rfl (by decide) (by decide) rfl

/-- C3: on a forwarding hop the outgoing `cycles_complete` never decreases;
it equals `received.cycles_complete + 1` exactly when the received origin is
the local unit (halt not firing), and is unchanged otherwise. -/
theorem c3_cycles_monotone (cfg : Config) (selfName selfApp : String)
    (recv : RecvEvent) (units : List UnitRef) (now : ℚ) (send : Token)
    (m nh : String) (rest : List String)
    (hm : recv.message = some m) (hne : m ≠ "")
    (hnohalt : ¬(recv.origin = selfName
      ∧ cfg.max_cycles = some (recv.cycles_complete + 1)))
    (ht : resolveTargets selfApp units = nh :: rest) :
    recv.cycles_complete
        ≤ (onReceive cfg selfName selfApp recv units now send).send.cycles_complete
    ∧ ((onReceive cfg selfName selfApp recv units now send).send.cycles_complete
          = recv.cycles_complete + 1 ↔ recv.origin = selfName)
    ∧ (recv.origin ≠ selfName →
        (onReceive cfg selfName selfApp recv units now send).send.cycles_complete
          = recv.cycles_complete) := by
  rw [onReceive_forward cfg selfName selfApp recv units now send
    (message_present hm hne) hnohalt nh rest ht]
  by_cases h : recv.origin = selfName
  · refine ⟨?_, ?_, ?_⟩ <;> simp [h]
  · refine ⟨?_, ?_, ?_⟩ <;> simp [h]

theorem c3_cycles_monotone_witness :
    (rcvSample.cycles_complete
        ≤ (onReceive { max_cycles := none, delay := 0 } "a/0" "a" rcvSample unitsAB 10
            sendInit).send.cycles_complete
    ∧ ((onReceive { max_cycles := none, delay := 0 } "a/0" "a" rcvSample unitsAB 10
            sendInit).send.cycles_complete = rcvSample.cycles_complete + 1
          ↔ rcvSample.origin = "a/0")
    ∧ (rcvSample.origin ≠ "a/0" →
        (onReceive { max_cycles := none, delay := 0 } "a/0" "a" rcvSample unitsAB 10
            sendInit).send.cycles_complete = rcvSample.cycles_complete)) :=
  c3_cycles_monotone { max_cycles := none, delay := 0 } "a/0" "a" rcvSample unitsAB 10
    sendInit "hello" "b/0" [] rfl (by decide) (by decide) rfl

/-- C5: an arrival event whose token has the `message` key absent or equal to
the empty string is a no-op: no bucket write, no status change, no error. -/
theorem c5_empty_message_noop (cfg : Config) (selfName selfApp : String)
    (recv : RecvEvent) (units : List UnitRef) (now : ℚ) (send : Token)
    (h : recv.message = none ∨ recv.message = some "") :
    onReceive cfg selfName selfApp recv units now send
      = { send := send, statuses := [], errored := false } :=
  onReceive_guard cfg selfName selfApp recv units now send h

theorem c5_empty_message_noop_witness :
    onReceive { max_cycles := none, delay := 0 } "a/0" "a" rcvBlank unitsAB 10 sendInit
      = { send := sendInit, statuses := [], errored := false } :=
  c5_empty_message_noop { max_cycles := none, delay := 0 } "a/0" "a" rcvBlank unitsAB
    10 sendInit (Or.inl rfl)

/-- C4: on the forwarding path the outgoing token has
`time_elapsed = received.time_elapsed + (now - received.timestamp)` and
`timestamp = now`; and along every lineage of successful forwards the
accumulated `time_elapsed` equals the initial value plus the sum of the
successive `(now − timestamp)` deltas, hence is non-decreasing whenever the
hop times do not run backwards. -/
theorem c4_time_accounting (cfg : Config) (selfName selfApp : String)
    (recv : RecvEvent) (units : List UnitRef) (now : ℚ) (send : Token)
    (m nh : String) (rest : List String)
    (hm : recv.message = some m) (hne : m ≠ "")
    (hnohalt : ¬(recv.origin = selfName
      ∧ cfg.max_cycles = some (recv.cycles_complete + 1)))
    (ht : resolveTargets selfApp units = nh :: rest) :
    ((onReceive cfg selfName selfApp recv units now send).send.time_elapsed
        = recv.time_elapsed + (now - recv.timestamp)
      ∧ (onReceive cfg selfName selfApp recv units now send).send.timestamp = now)
    ∧ (∀ (cfg2 : Config) (hops : List Hop) (t : Token),
        cfg2.max_cycles = none → t.message ≠ "" →
        (∀ h ∈ hops, resolveTargets h.selfApp h.units ≠ []) →
        (runHops cfg2 hops t).time_elapsed
            = t.time_elapsed + sumDeltas t.timestamp (hops.map Hop.now)
          ∧ (List.Chain (fun a b => a ≤ b) t.timestamp (hops.map Hop.now) →
              t.time_elapsed ≤ (runHops cfg2 hops t).time_elapsed)) := by
  constructor
  · rw [onReceive_forward cfg selfName selfApp recv units now send
      (message_present hm hne) hnohalt nh rest ht]
    exact ⟨rfl, rfl⟩
  · intro cfg2 hops t hmc hm2 hres
    have he := runHops_time_elapsed cfg2 hmc hops t hm2 hres
    refine ⟨he, fun hch => ?_⟩
    have hs := sumDeltas_nonneg (hops.map Hop.now) t.timestamp hch
    rw [he]
    linarith

theorem c4_time_accounting_witness :
    (((onReceive { max_cycles := none, delay := 0 } "a/0" "a" rcvSample unitsAB 10
          sendInit).send.time_elapsed
        = rcvSample.time_elapsed + (10 - rcvSample.timestamp)
      ∧ (onReceive { max_cycles := none, delay := 0 } "a/0" "a" rcvSample unitsAB 10
          sendInit).send.timestamp = 10)
    ∧ ((runHops { max_cycles := none, delay := 0 }
          [{ selfName := "a/0", selfApp := "a", units := unitsAB, now := 10 }]
          { message := "hello", origin := "b/0", next_holder := "a/0",
            cycles_complete := 0, times_passed := 1, times_received := 0,
            time_elapsed := 0, timestamp := 3 }).time_elapsed
        = (0 : ℚ) + sumDeltas 3 [10]
      ∧ (List.Chain (fun a b => a ≤ b) (3 : ℚ) [10] →
          (0 : ℚ) ≤ (runHops { max_cycles := none, delay := 0 }
            [{ selfName := "a/0", selfApp := "a", units := unitsAB, now := 10 }]
            { message := "hello", origin := "b/0", next_holder := "a/0",
              cycles_complete := 0, times_passed := 1, times_received := 0,
              time_elapsed := 0, timestamp := 3 }).time_elapsed))) :=
  ⟨(c4_time_accounting { max_cycles := none, delay := 0 } "a/0" "a" rcvSample unitsAB
      10 sendInit "hello" "b/0" [] rfl (by decide) (by decide) rfl).1,
   (c4_time_accounting { max_cycles := none, delay := 0 } "a/0" "a" rcvSample unitsAB
      10 sendInit "hello" "b/0" [] rfl (by decide) (by decide) rfl).2
     { max_cycles := none, delay := 0 }
     [{ selfName := "a/0", selfApp := "a", units := unitsAB, now := 10 }]
     { message := "hello", origin := "b/0", next_holder := "a/0",
       cycles_complete := 0, times_passed := 1, times_received := 0,
       time_elapsed := 0, timestamp := 3 }
     rfl (by decide) (by
       intro h hh
       simp only [List.mem_singleton] at hh
       subst hh
       decide)⟩

/-- C6: a successful ping action with a non-empty candidate list writes a
token with the action's `token` parameter as message, the local unit as
origin, the first candidate as `next_holder`, `cycles_complete = 0`,
`times_passed = 1`, `times_received = 0`, `time_elapsed = 0` and
`timestamp = now` into the local send bucket. -/
theorem c6_inject_token (selfName selfApp tok : String) (units : List UnitRef)
    (now : ℚ) (send : Token) (nh : String) (rest : List String)
    (ht : resolveTargets selfApp units = nh :: rest) :
    onPingAction selfName selfApp tok units now send
      = { send :=
            { message := tok, origin := selfName, next_holder := nh,
              cycles_complete := 0, times_passed := 1, times_received := 0,
              time_elapsed := 0, timestamp := now },
          statuses := [], errored := false } :=
  onPingAction_ok selfName selfApp tok units now send nh rest ht

theorem c6_inject_token_witness :
    onPingAction "a/0" "a" "hi" unitsAB 7 sendInit
      = { send :=
            { message := "hi", origin := "a/0", next_holder := "b/0",
              cycles_complete := 0, times_passed := 1, times_received := 0,
              time_elapsed := 0, timestamp := 7 },
          statuses := [], errored := false } :=
  c6_inject_token "a/0" "a" "hi" unitsAB 7 sendInit "b/0" [] rfl

/-- C7 counterexample: with an empty candidate list the receive handler does
raise, but the local bucket has already been mutated when `target[0]` fails
(`cycles_complete`, `message` and `origin` were written at lines 106/108,
125, 126), so "does not write an outgoing token" is false for this input. -/
theorem c7_counterexample :
    (onReceive { max_cycles := none, delay := 0 } "a/0" "a" rcvFive [] 10
        sendInit).errored = true
    ∧ (onReceive { max_cycles := none, delay := 0 } "a/0" "a" rcvFive [] 10
        sendInit).send ≠ sendInit := by
  refine ⟨rfl, fun h => ?_⟩
  exact absurd (congrArg Token.cycles_complete h) (by decide)

/-- C7 amended: with an empty candidate list both handlers fail with an
uncaught index error (surfaced to the operator as a failed hook, no retry)
and fabricate no destination — `next_holder` and all counter and timing
fields keep their prior values — but the fields assigned before the failing
resolution remain written: `cycles_complete`, `message` and `origin` in the
receive handler, `message` and `origin` in the ping action. -/
theorem c7_no_peer_surfaced (cfg : Config) (selfName selfApp tok : String)
    (recv : RecvEvent) (units : List UnitRef) (now : ℚ) (send : Token) (m : String)
    (hm : recv.message = some m) (hne : m ≠ "")
    (hnohalt : ¬(recv.origin = selfName
      ∧ cfg.max_cycles = some (recv.cycles_complete + 1)))
    (ht : resolveTargets selfApp units = []) :
    onReceive cfg selfName selfApp recv units now send
      = { send := { send with
              cycles_complete :=
                if recv.origin = selfName then recv.cycles_complete + 1
                else recv.cycles_complete,
              message := recv.messageVal,
              origin := recv.origin },
          statuses := [snapshot recv], errored := true }
    ∧ onPingAction selfName selfApp tok units now send
      = { send := { send with message := tok, origin := selfName },
          statuses := [], errored := true } :=
  ⟨onReceive_noPeer cfg selfName selfApp recv units now send
      (message_present hm hne) hnohalt ht,
   onPingAction_noPeer selfName selfApp tok units now send ht⟩

theorem c7_no_peer_surfaced_witness :
    (onReceive { max_cycles := none, delay := 0 } "a/0" "a" rcvFive [] 10 sendInit
      = { send := { sendInit with
              cycles_complete :=
                if rcvFive.origin = "a/0" then rcvFive.cycles_complete + 1
                else rcvFive.cycles_complete,
              message := rcvFive.messageVal,
              origin := rcvFive.origin },
          statuses := [snapshot rcvFive], errored := true }
    ∧ onPingAction "a/0" "a" "hi" [] 10 sendInit
      = { send := { sendInit with message := "hi", origin := "a/0" },
          statuses := [], errored := true }) :=
  c7_no_peer_surfaced { max_cycles := none, delay := 0 } "a/0" "a" "hi" rcvFive [] 10
    sendInit "hello" rfl (by decide) (by decide) rfl

/-- C8 counterexample: after a non-halt arrival the status that remains when
the handler completes is the empty `ActiveStatus()` set at line 139, not a
string reflecting the received token's fields (shown here as `specStatus`,
evaluated at the same input). -/
theorem c8_counterexample :
    (onReceive { max_cycles := none, delay := 0 } "a/0" "a" rcvSample unitsAB 10
        sendInit).statuses.getLast?.getD "unset" = ""
    ∧ specStatus rcvSample = "M: hello H: a/0 P: 1 R: 0 C: 0 T: 0.00"
    ∧ ("" : String) ≠ "M: hello H: a/0 P: 1 R: 0 C: 0 T: 0.00" := by
  refine ⟨rfl, ?_, by decide⟩
  unfold specStatus format2 RecvEvent.messageVal rcvSample
  norm_num
  decide

/-- C8 amended: during a non-halt arrival the handler sets exactly two status
values, in order: first the snapshot of the received token's fields —
`message`, `next_holder`, `times_passed`, `times_received + 1`,
`cycles_complete`, and `time_elapsed` with 2-decimal formatting — and then
the empty status, which is what remains visible when the handler completes. -/
theorem c8_snapshot_then_cleared (cfg : Config) (selfName selfApp : String)
    (recv : RecvEvent) (units : List UnitRef) (now : ℚ) (send : Token)
    (m nh : String) (rest : List String)
    (hm : recv.message = some m) (hne : m ≠ "")
    (hnohalt : ¬(recv.origin = selfName
      ∧ cfg.max_cycles = some (recv.cycles_complete + 1)))
    (ht : resolveTargets selfApp units = nh :: rest) :
    (onReceive cfg selfName selfApp recv units now send).statuses
      = [snapshot recv, ""] := by
  rw [onReceive_forward cfg selfName selfApp recv units now send
    (message_present hm hne) hnohalt nh rest ht]

theorem c8_snapshot_then_cleared_witness :
    (onReceive { max_cycles := none, delay := 0 } "a/0" "a" rcvSample unitsAB 10
        sendInit).statuses = [snapshot rcvSample, ""] :=
  c8_snapshot_then_cleared { max_cycles := none, delay := 0 } "a/0" "a" rcvSample
    unitsAB 10 sendInit "hello" "b/0" [] rfl (by decide) (by decide) rfl

/-- C9: the halt branch changes nothing but the unit status — the bucket is
returned unchanged and no stored state records the halt — so any later
arrival or ping action on the same bucket and configuration is handled
exactly as it would have been had the halt never happened. -/
theorem c9_halt_only_status (cfg : Config) (selfName selfApp : String)
    (recv : RecvEvent) (units : List UnitRef) (now : ℚ) (send : Token) (m : String)
    (hm : recv.message = some m) (hne : m ≠ "")
    (horig : recv.origin = selfName)
    (hmax : cfg.max_cycles = some (recv.cycles_complete + 1)) :
    (onReceive cfg selfName selfApp recv units now send).send = send
    ∧ (∀ (s2 a2 : String) (r2 : RecvEvent) (u2 : List UnitRef) (n2 : ℚ),
        onReceive cfg s2 a2 r2 u2 n2
            ((onReceive cfg selfName selfApp recv units now send).send)
          = onReceive cfg s2 a2 r2 u2 n2 send)
    ∧ (∀ (s2 a2 t2 : String) (u2 : List UnitRef) (n2 : ℚ),
        onPingAction s2 a2 t2 u2 n2
            ((onReceive cfg selfName selfApp recv units now send).send)
          = onPingAction s2 a2 t2 u2 n2 send) := by
  rw [onReceive_halt cfg selfName selfApp recv units now send
    (message_present hm hne) horig hmax]
  exact ⟨rfl, fun _ _ _ _ _ => rfl, fun _ _ _ _ _ => rfl⟩

theorem c9_halt_only_status_witness :
    ((onReceive { max_cycles := some 1, delay := 0 } "a/0" "a" rcvHome unitsAB 10
        sendInit).send = sendInit
    ∧ onReceive { max_cycles := some 1, delay := 0 } "b/0" "b" rcvSample unitsAB 11
        ((onReceive { max_cycles := some 1, delay := 0 } "a/0" "a" rcvHome unitsAB 10
          sendInit).send)
      = onReceive { max_cycles := some 1, delay := 0 } "b/0" "b" rcvSample unitsAB 11
          sendInit
    ∧ onPingAction "a/0" "a" "hi" unitsAB 12
        ((onReceive { max_cycles := some 1, delay := 0 } "a/0" "a" rcvHome unitsAB 10
          sendInit).send)
      = onPingAction "a/0" "a" "hi" unitsAB 12 sendInit) := by
  have h := c9_halt_only_status { max_cycles := some 1, delay := 0 } "a/0" "a" rcvHome
    unitsAB 10 sendInit "hello" rfl (by decide) rfl rfl
  exact ⟨h.1, h.2.1 "b/0" "b" rcvSample unitsAB 11, h.2.2 "a/0" "a" "hi" unitsAB 12⟩

/-- C10: with `max_cycles` configured as `0` the halt branch is unreachable —
the candidate `received.cycles_complete + 1` is at least 1 since
`cycles_complete` is a checked non-negative integer — so the receive handler
behaves identically to the unset (unbounded) configuration. -/
theorem c10_zero_max_cycles_unbounded (cfg1 cfg2 : Config)
    (h1 : cfg1.max_cycles = some 0) (h2 : cfg2.max_cycles = none)
    (selfName selfApp : String) (recv : RecvEvent) (units : List UnitRef)
    (now : ℚ) (send : Token) :
    onReceive cfg1 selfName selfApp recv units now send
      = onReceive cfg2 selfName selfApp recv units now send := by
  unfold onReceive
  rw [h1, h2]
  have hh1 : ¬(recv.origin = selfName
      ∧ (some 0 : Option Nat) = some (recv.cycles_complete + 1)) := by
    rintro ⟨-, hc⟩
    exact Nat.succ_ne_zero _ (Option.some.inj hc).symm
  have hh2 : ¬(recv.origin = selfName
      ∧ (none : Option Nat) = some (recv.cycles_complete + 1)) := by
    rintro ⟨-, hc⟩
    exact Option.noConfusion hc
  by_cases hg : recv.message = none ∨ recv.message = some ""
  · rw [if_pos hg, if_pos hg]
  · rw [if_neg hg, if_neg hg, if_neg hh1, if_neg hh2]

theorem c10_zero_max_cycles_unbounded_witness :
    onReceive { max_cycles := some 0, delay := 0 } "a/0" "a" rcvHome unitsAB 10
        sendInit
      = onReceive { max_cycles := none, delay := 0 } "a/0" "a" rcvHome unitsAB 10
          sendInit :=
  c10_zero_max_cycles_unbounded { max_cycles := some 0, delay := 0 }
    { max_cycles := none, delay := 0 } rfl rfl "a/0" "a" rcvHome unitsAB 10 sendInit

end FeedAndSync
